import Mathlib

/-!
Shallow embedding of the robohub auth-service token-exchange pipeline
(internal/oidc/verifier.go, internal/httpapi/server.go, internal/policy,
internal/ratelimit, internal/token) together with the parts of the
golang-jwt/v5 parsing/validation pipeline that the verifier and minter
delegate to.  Machine integers are modelled as Nat/Int; JSON numbers,
timestamps and token-bucket levels as rationals.
-/

set_option maxRecDepth 4000

namespace Robohub

/-- A decoded JSON value, as produced by Go's `encoding/json` decoding into
`interface\x7b\x7d`: numbers decode to `float64` (modelled as a rational),
strings to `string`, arrays to `[]interface\x7b\x7d`, objects to maps. -/
inductive JSON where
  | str (s : String)
  | num (q : ℚ)
  | bool (b : Bool)
  | null
  | arr (xs : List JSON)
  | obj (fields : List (String × JSON))
deriving Repr

/-- Go `map[string]interface\x7b\x7d` lookup, modelled over an association list. -/
def jlookup (key : String) (m : List (String × JSON)) : Option JSON :=
  match m with
  | [] => none
  | (k, v) :: rest => if k = key then some v else jlookup key rest

/-- Truncation of a rational toward zero: Go's `int64(f)` conversion on a
`float64` value. -/
def ratTrunc (q : ℚ) : ℤ :=
  if q < 0 then ⌈q⌉ else ⌊q⌋

/-- Round a non-negative rational to the nearest integer, ties to even:
the rounding performed by Go's `strconv`/`fmt` when formatting a float
with `%.0f`. -/
def roundHalfEven (q : ℚ) : ℤ :=
  if q - ⌊q⌋ < 1/2 then ⌊q⌋
  else if (1 : ℚ)/2 < q - ⌊q⌋ then ⌊q⌋ + 1
  else if ⌊q⌋ % 2 = 0 then ⌊q⌋ else ⌊q⌋ + 1

/-- Go `fmt.Sprintf("%.0f", q)`: round to nearest integer (ties to even),
keeping the sign of the input (so `-0.4` formats as "-0"). -/
def goFmtDot0 (q : ℚ) : String :=
  if q < 0 then "-" ++ (roundHalfEven (-q)).toNat.repr
  else (roundHalfEven q).toNat.repr

/-- A Go `time.Time` as the verifier stores it: either the zero value
`time.Time\x7b\x7d` or `time.Unix(sec, 0)`. -/
inductive GoTime where
  | zero
  | unix (sec : ℤ)
deriving Repr, DecidableEq

/-- `types.VerifiedClaims`: the normalized claim set produced by the verifier. -/
structure VerifiedClaims where
  Repository : String
  Ref : String
  Actor : String
  RunID : String
  Workflow : String
  IssuedAt : GoTime
  ExpiresAt : GoTime
deriving Repr, DecidableEq

end Robohub

namespace Robohub.policy

/-- `policy.Enforcer`.  The Go struct stores the allow and deny lists as
`map[string]bool` sets built from the configured slices; membership and
emptiness of those maps coincide with membership and emptiness of the
slices, so the lists are kept directly. -/
structure Enforcer where
  defaultBranchOnly : Bool
  defaultBranch : String
  allowList : List String
  denyList : List String

/-- `policy.NewEnforcer`. -/
def NewEnforcer (defaultBranchOnly : Bool) (defaultBranch : String)
    (allowList denyList : List String) : Enforcer :=
  { defaultBranchOnly := defaultBranchOnly
    defaultBranch := defaultBranch
    allowList := allowList
    denyList := denyList }

/-- The three distinct error sites of `Enforcer.Evaluate`, each carrying the
formatted message of its `fmt.Errorf` call. -/
inductive PolicyErr where
  | deniedByPolicy (msg : String)
  | notInAllowlist (msg : String)
  | onlyDefaultBranch (msg : String)
deriving Repr, DecidableEq

/-- `Enforcer.Evaluate`: `none` means the nil error (allowed). -/
def Enforcer.Evaluate (e : Enforcer) (repository ref : String) : Option PolicyErr :=
  if e.denyList.contains repository then
    some (.deniedByPolicy ("repository " ++ repository ++ " is denied by policy"))
  else if e.allowList.length > 0 ∧ ¬ e.allowList.contains repository then
    some (.notInAllowlist ("repository " ++ repository ++ " is not in allowlist"))
  else if e.defaultBranchOnly ∧ ref ≠ "refs/heads/" ++ e.defaultBranch then
    some (.onlyDefaultBranch ("only default branch refs/heads/" ++ e.defaultBranch
      ++ " is allowed, got " ++ ref))
  else
    none

/-- The deny reasons of the specification, as abstract tags. -/
inductive Decision where
  | allow
  | denyDeniedByPolicy
  | denyNotInAllowlist
  | denyOnlyDefaultBranch
deriving Repr, DecidableEq

/-- Reason tag of an `Evaluate` outcome. -/
def decisionOf : Option PolicyErr → Decision
  | none => .allow
  | some (.deniedByPolicy _) => .denyDeniedByPolicy
  | some (.notInAllowlist _) => .denyNotInAllowlist
  | some (.onlyDefaultBranch _) => .denyOnlyDefaultBranch

/-- The policy decision as the specification words it: deny-list first
(deny wins even over an allow-list hit), then the non-empty allow-list
restriction, then the protected-branch check against the fixed prefix
joined with the configured branch, else allow. -/
def specDecision (e : Enforcer) (repository ref : String) : Decision :=
  if repository ∈ e.denyList then .denyDeniedByPolicy
  else if e.allowList ≠ [] ∧ repository ∉ e.allowList then .denyNotInAllowlist
  else if e.defaultBranchOnly = true ∧ ref ≠ "refs/heads/" ++ e.defaultBranch then
    .denyOnlyDefaultBranch
  else .allow

end Robohub.policy

namespace Robohub.policy

/-- C8: `Evaluate` applies exactly the short-circuiting checks deny-list
(reason "denied by policy", winning over the allow list), then non-empty
allow-list membership (reason "not in allowlist", empty list imposing no
restriction), then the protected-branch equality against the fixed prefix
joined with the configured branch (reason "only default branch"), else
allow. -/
theorem C8_evaluate_matches_spec_decision (e : Enforcer) (repository ref : String) :
    decisionOf (e.Evaluate repository ref) = specDecision e repository ref := by
  simp only [Enforcer.Evaluate, specDecision]
  by_cases h1 : repository ∈ e.denyList
  · simp [h1, decisionOf]
  · by_cases h2 : e.allowList ≠ [] ∧ repository ∉ e.allowList
    · simp [h1, h2, decisionOf, List.length_pos, decisionOf]
    · rcases not_and_or.mp h2 with h2a | h2b
      · simp at h2a
        by_cases h3 : e.defaultBranchOnly = true ∧ ref ≠ "refs/heads/" ++ e.defaultBranch
        · simp [h1, h2a, h3, decisionOf]
        · simp [h1, h2a, h3, decisionOf]
      · simp at h2b
        by_cases h3 : e.defaultBranchOnly = true ∧ ref ≠ "refs/heads/" ++ e.defaultBranch
        · simp [h1, h2b, h3, decisionOf]
        · simp [h1, h2b, h3, decisionOf]

end Robohub.policy

namespace Robohub.oidc

open Robohub

/-- The concrete signing-method types registered by golang-jwt/v5: an `alg`
header resolves to exactly one of these via `jwt.GetSigningMethod`; the
constructor is the Go concrete type of the method value. -/
inductive SigningMethod where
  | rsa      -- *SigningMethodRSA (RS256/RS384/RS512)
  | hmac     -- *SigningMethodHMAC (HS256/HS384/HS512)
  | ecdsa    -- *SigningMethodECDSA (ES256/ES384/ES512)
  | rsapss   -- *SigningMethodRSAPSS (PS256/PS384/PS512)
  | eddsa    -- *SigningMethodEd25519 (EdDSA)
  | sigNone  -- SigningMethodNone ("none")
deriving Repr, DecidableEq

/-- `jwt.GetSigningMethod`: `none` for an unregistered algorithm name, for
which parsing fails before the keyfunc runs. -/
def getSigningMethod (alg : String) : Option SigningMethod :=
  if alg = "RS256" ∨ alg = "RS384" ∨ alg = "RS512" then some .rsa
  else if alg = "HS256" ∨ alg = "HS384" ∨ alg = "HS512" then some .hmac
  else if alg = "ES256" ∨ alg = "ES384" ∨ alg = "ES512" then some .ecdsa
  else if alg = "PS256" ∨ alg = "PS384" ∨ alg = "PS512" then some .rsapss
  else if alg = "EdDSA" then some .eddsa
  else if alg = "none" then some .sigNone
  else none

/-- An `*rsa.PublicKey`: modulus and exponent as built by
`parseRSAPublicKey` in verifier.go. -/
structure PubKey where
  N : ℕ
  E : ℕ
deriving Repr, DecidableEq

/-- A parsed JWS compact token: the unsigned header object, the decoded
claims object, and the signature bytes (kept abstract). -/
structure JWT where
  header : List (String × JSON)
  claims : List (String × JSON)
  sig : String
deriving Repr

/-- Errors of `JWKSCache.GetKey`. -/
inductive GetKeyErr where
  | fetchFailed (msg : String)   -- "failed to fetch JWKS: ..."
  | notFound (kid : String)      -- "key with kid ... not found in JWKS"
deriving Repr, DecidableEq

/-- The individual claim-validation errors collected by the golang-jwt/v5
`Validator.Validate` over MapClaims with no expected audience/issuer/subject,
`requireExp = false` and `verifyIat = false`: only `exp` and `nbf` are
examined, in that order. -/
inductive ClaimVErr where
  | expType       -- "exp is unexpected type" from MapClaims.parseNumericDate
  | expired       -- ErrTokenExpired
  | nbfType       -- "nbf is unexpected type"
  | notYetValid   -- ErrTokenNotValidYet
deriving Repr, DecidableEq

/-- MapClaims.parseNumericDate: absent keys and the float64 zero read as a
nil NumericDate; a non-numeric value is a type error. -/
def parseNumericDate (claims : List (String × JSON)) (key : String) :
    Except Unit (Option ℚ) :=
  match jlookup key claims with
  | none => .ok none
  | some (JSON.num q) => if q = 0 then .ok none else .ok (some q)
  | some _ => .error ()

/-- `Validator.Validate` at time `now` with the configured leeway: the list
of collected errors, empty iff the claims pass.  `exp` passes iff
`now < exp + leeway`; `nbf` passes iff `¬ (now < nbf - leeway)`. -/
def validateTimes (now leeway : ℚ) (claims : List (String × JSON)) : List ClaimVErr :=
  (match parseNumericDate claims "exp" with
   | .error _ => [ClaimVErr.expType]
   | .ok none => []
   | .ok (some e) => if now < e + leeway then [] else [ClaimVErr.expired])
  ++
  (match parseNumericDate claims "nbf" with
   | .error _ => [ClaimVErr.nbfType]
   | .ok none => []
   | .ok (some b) => if now < b - leeway then [ClaimVErr.notYetValid] else [])

/-- The distinct error sites of `GitHubVerifier.Verify` (including the ones
reached inside `jwt.Parse`). -/
inductive VerifyErr where
  | malformedHeader                       -- alg header missing or not a string
  | unknownAlg (alg : String)             -- GetSigningMethod returned nil
  | unexpectedSigningMethod (alg : String)  -- keyfunc: method not *SigningMethodRSA
  | missingKid                            -- keyfunc: kid missing or not a string
  | keyLookup (e : GetKeyErr)             -- keyfunc: JWKSCache.GetKey failed
  | badSignature                          -- signature verification failed
  | invalidClaims (errs : List ClaimVErr) -- jwt validator (exp/nbf) failed
  | invalidIssuer                         -- iss missing, non-string or mismatched
  | invalidAudienceType                   -- extractAudience: unsupported type
  | audienceMismatch                      -- expected audience not contained
  | missingRepository
  | missingRef
  | missingActor
  | missingRunID
  | missingWorkflow
deriving Repr, DecidableEq

/-- `claims[key].(string)`: the value when present and a string. -/
def getStringClaim (claims : List (String × JSON)) (key : String) : Option String :=
  match jlookup key claims with
  | some (JSON.str s) => some s
  | _ => none

/-- `claims[key].(string)` followed by the `== ""` rejection used for the
required repository/ref/actor claims. -/
def getNonEmptyString (claims : List (String × JSON)) (key : String) : Option String :=
  match getStringClaim claims key with
  | some s => if s = "" then none else some s
  | none => none

/-- `GitHubVerifier.extractAudience`: a string audience becomes a singleton,
an array keeps only its string elements, anything else (including an absent
claim) is the distinct type error. -/
def extractAudience (claims : List (String × JSON)) : Except Unit (List String) :=
  match jlookup "aud" claims with
  | some (JSON.str s) => .ok [s]
  | some (JSON.arr items) =>
      .ok (items.filterMap (fun item =>
        match item with
        | JSON.str s => some s
        | _ => none))
  | _ => .error ()

/-- `GitHubVerifier.containsAudience`. -/
def containsAudience (audiences : List String) (expected : String) : Bool :=
  audiences.contains expected

/-- `GitHubVerifier.extractRunID`: a string is returned verbatim, a float64
is rendered with `fmt.Sprintf("%.0f", ...)`, anything else yields "". -/
def extractRunID (claims : List (String × JSON)) : String :=
  match jlookup "run_id" claims with
  | some (JSON.str s) => s
  | some (JSON.num q) => goFmtDot0 q
  | _ => ""

/-- The workflow fallback in `Verify`: `workflow_ref` if it is a string,
else `job_workflow_ref` if it is a string, else "". -/
def extractWorkflow (claims : List (String × JSON)) : String :=
  match getStringClaim claims "workflow_ref" with
  | some wf => wf
  | none =>
      match getStringClaim claims "job_workflow_ref" with
      | some jwf => jwf
      | none => ""

/-- `GitHubVerifier.extractTimestamp`: `time.Unix(int64(val), 0)` for a
float64 value, the zero `time.Time` otherwise. -/
def extractTimestamp (claims : List (String × JSON)) (key : String) : GoTime :=
  match jlookup key claims with
  | some (JSON.num q) => GoTime.unix (ratTrunc q)
  | _ => GoTime.zero

/-- The configuration fields of `GitHubVerifier`. -/
structure VerifierCfg where
  issuer : String
  audience : String
  clockSkew : ℚ

/-- `jwt.ParseUnverified`'s algorithm resolution: the `alg` header must be a
string naming a registered method. -/
def parseAlg (tok : JWT) : Except VerifyErr SigningMethod :=
  match jlookup "alg" tok.header with
  | some (JSON.str a) =>
      (match getSigningMethod a with
       | some m => .ok m
       | none => .error (.unknownAlg a))
  | _ => .error .malformedHeader

/-- The keyfunc closure inside `GitHubVerifier.Verify`: reject any method
that is not the concrete `*jwt.SigningMethodRSA`, read `kid` from the
header, then resolve the key through the JWKS cache.  The second component
lists the `kid` values passed to `GetKey`. -/
def keyfunc (getKey : String → Except GetKeyErr PubKey) (tok : JWT)
    (m : SigningMethod) (a : String) : Except VerifyErr PubKey × List String :=
  if m ≠ SigningMethod.rsa then (.error (.unexpectedSigningMethod a), [])
  else
    match jlookup "kid" tok.header with
    | some (JSON.str kid) =>
        (match getKey kid with
         | .ok pk => (.ok pk, [kid])
         | .error e => (.error (.keyLookup e), [kid]))
    | _ => (.error .missingKid, [])

/-- `jwt.Parse` with `jwt.WithLeeway(leeway)` over an already-split token:
resolve the method, run the keyfunc, verify the signature with the resolved
key, then run the default claims validator (exp/nbf).  `sigValid` stands for
`token.Method.Verify` with the resolved RSA key. -/
def jwtParse (getKey : String → Except GetKeyErr PubKey)
    (sigValid : PubKey → JWT → Bool) (leeway now : ℚ) (tok : JWT) :
    Except VerifyErr Unit × List String :=
  match parseAlg tok with
  | .error e => (.error e, [])
  | .ok m =>
      let a := match jlookup "alg" tok.header with
        | some (JSON.str s) => s
        | _ => ""
      match keyfunc getKey tok m a with
      | (.error e, ls) => (.error e, ls)
      | (.ok pk, ls) =>
          if sigValid pk tok = false then (.error .badSignature, ls)
          else
            match validateTimes now leeway tok.claims with
            | [] => (.ok (), ls)
            | errs => (.error (.invalidClaims errs), ls)

/-- The claim extraction and validation performed by `Verify` after
`jwt.Parse` has succeeded: issuer string equality, audience membership,
then the required repository/ref/actor/run_id/workflow claims, then the
iat/exp timestamps. -/
def extractClaims (cfg : VerifierCfg) (claims : List (String × JSON)) :
    Except VerifyErr VerifiedClaims :=
  if getStringClaim claims "iss" ≠ some cfg.issuer then .error .invalidIssuer
  else
    match extractAudience claims with
    | .error _ => .error .invalidAudienceType
    | .ok auds =>
        if ¬ containsAudience auds cfg.audience then .error .audienceMismatch
        else
          match getNonEmptyString claims "repository" with
          | none => .error .missingRepository
          | some repository =>
              match getNonEmptyString claims "ref" with
              | none => .error .missingRef
              | some ref =>
                  match getNonEmptyString claims "actor" with
                  | none => .error .missingActor
                  | some actor =>
                      let runID := extractRunID claims
                      if runID = "" then .error .missingRunID
                      else
                        let workflow := extractWorkflow claims
                        if workflow = "" then .error .missingWorkflow
                        else .ok {
                          Repository := repository
                          Ref := ref
                          Actor := actor
                          RunID := runID
                          Workflow := workflow
                          IssuedAt := extractTimestamp claims "iat"
                          ExpiresAt := extractTimestamp claims "exp" }

/-- `GitHubVerifier.Verify`: `jwt.Parse` with the RSA-only keyfunc and the
configured leeway, then the manual claim checks.  The second component is
the list of key identifiers looked up in the JWKS cache. -/
def Verify (cfg : VerifierCfg) (getKey : String → Except GetKeyErr PubKey)
    (sigValid : PubKey → JWT → Bool) (now : ℚ) (tok : JWT) :
    Except VerifyErr VerifiedClaims × List String :=
  match jwtParse getKey sigValid cfg.clockSkew now tok with
  | (.error e, ls) => (.error e, ls)
  | (.ok _, ls) => (extractClaims cfg tok.claims, ls)

end Robohub.oidc

namespace Robohub.oidc

/-- C1: for every token whose header declares a signing algorithm that does
not resolve to the concrete RSA method (either an unregistered name or a
registered non-RSA family such as HMAC), `Verify` returns an error and
performs no JWKS cache lookup. -/
theorem C1_non_rsa_alg_fails_without_key_lookup
    (cfg : VerifierCfg) (getKey : String → Except GetKeyErr PubKey)
    (sigValid : PubKey → JWT → Bool) (now : ℚ) (tok : JWT) (a : String)
    (halg : jlookup "alg" tok.header = some (JSON.str a))
    (hfam : getSigningMethod a ≠ some SigningMethod.rsa) :
    (∃ e, (Verify cfg getKey sigValid now tok).1 = Except.error e) ∧
      (Verify cfg getKey sigValid now tok).2 = [] := by
  unfold Verify jwtParse parseAlg
  rw [halg]
  cases hm : getSigningMethod a with
  | none => simp [hm]
  | some m =>
      have hm' : m ≠ SigningMethod.rsa := by
        intro hcontra
        exact hfam (hcontra ▸ hm)
      simp [hm, keyfunc, hm']

/-- Witness for C1 at the concrete algorithm HS256 (the symmetric family of
the downgrade attack). -/
theorem C1_witness :
    (∃ e, (Verify ⟨"https://token.actions.example", "robohub", 0⟩
        (fun _ => Except.error (GetKeyErr.notFound "k"))
        (fun _ _ => true) 0
        ⟨[("alg", JSON.str "HS256"), ("kid", JSON.str "k")], [], ""⟩).1
          = Except.error e) ∧
      (Verify ⟨"https://token.actions.example", "robohub", 0⟩
        (fun _ => Except.error (GetKeyErr.notFound "k"))
        (fun _ _ => true) 0
        ⟨[("alg", JSON.str "HS256"), ("kid", JSON.str "k")], [], ""⟩).2 = [] :=
  C1_non_rsa_alg_fails_without_key_lookup _ _ _ _ _ "HS256" (by rfl) (by decide)

end Robohub.oidc

namespace Robohub.oidc

/-- Reduction of `Verify` once the header is well-formed (RSA algorithm,
string `kid`), the key resolves and the signature verifies: what remains is
the jwt time validation followed by the manual claim extraction. -/
theorem verify_reduction_after_signature
    (cfg : VerifierCfg) (getKey : String → Except GetKeyErr PubKey)
    (sigValid : PubKey → JWT → Bool) (now : ℚ) (tok : JWT)
    (a kid : String) (pk : PubKey)
    (halg : jlookup "alg" tok.header = some (JSON.str a))
    (hrsa : getSigningMethod a = some SigningMethod.rsa)
    (hkid : jlookup "kid" tok.header = some (JSON.str kid))
    (hkey : getKey kid = Except.ok pk)
    (hsig : sigValid pk tok = true) :
    Verify cfg getKey sigValid now tok =
      (match validateTimes now cfg.clockSkew tok.claims with
       | [] => (extractClaims cfg tok.claims, [kid])
       | errs => (Except.error (VerifyErr.invalidClaims errs), [kid])) := by
  unfold Verify jwtParse parseAlg keyfunc
  rw [halg]
  simp only [hrsa, hkid, hkey, hsig]
  simp only [ne_eq, not_true_eq_false, reduceIte, Bool.true_eq_false]
  cases hvt : validateTimes now cfg.clockSkew tok.claims with
  | nil => simp [hsig]
  | cons e rest => simp [hsig]

end Robohub.oidc

namespace Robohub.oidc

/-- `extractClaims` fails with the issuer error when the `iss` claim is
missing, non-string, or different from the configured issuer. -/
theorem extractClaims_bad_issuer (cfg : VerifierCfg) (claims : List (String × JSON))
    (h : getStringClaim claims "iss" ≠ some cfg.issuer) :
    extractClaims cfg claims = Except.error VerifyErr.invalidIssuer := by
  unfold extractClaims
  rw [if_pos h]

/-- `extractClaims` reports the distinct audience-type error when the
issuer matches but the `aud` claim is neither a string nor an array. -/
theorem extractClaims_bad_aud_type (cfg : VerifierCfg) (claims : List (String × JSON))
    (hiss : getStringClaim claims "iss" = some cfg.issuer)
    (haud : extractAudience claims = Except.error ()) :
    extractClaims cfg claims = Except.error VerifyErr.invalidAudienceType := by
  unfold extractClaims
  rw [if_neg (by simp [hiss]), haud]

/-- `extractClaims` reports the audience mismatch when the issuer matches,
the audience parses, but the expected audience is not contained. -/
theorem extractClaims_aud_mismatch (cfg : VerifierCfg) (claims : List (String × JSON))
    (auds : List String)
    (hiss : getStringClaim claims "iss" = some cfg.issuer)
    (haud : extractAudience claims = Except.ok auds)
    (hmem : containsAudience auds cfg.audience = false) :
    extractClaims cfg claims = Except.error VerifyErr.audienceMismatch := by
  unfold extractClaims
  rw [if_neg (by simp [hiss]), haud]
  simp [hmem]

/-- C4[amended]: after signature verification the checks run in the order
expiration/not-before (inside `jwt.Parse`, with the configured symmetric
leeway on both bounds), then issuer string equality, then audience
membership (string or string array, with a distinct error for any other
type); the error reported is that of the earliest failing check in THIS
order. -/
theorem C4_time_then_issuer_then_audience
    (cfg : VerifierCfg) (getKey : String → Except GetKeyErr PubKey)
    (sigValid : PubKey → JWT → Bool) (now : ℚ) (tok : JWT)
    (a kid : String) (pk : PubKey)
    (halg : jlookup "alg" tok.header = some (JSON.str a))
    (hrsa : getSigningMethod a = some SigningMethod.rsa)
    (hkid : jlookup "kid" tok.header = some (JSON.str kid))
    (hkey : getKey kid = Except.ok pk)
    (hsig : sigValid pk tok = true) :
    (validateTimes now cfg.clockSkew tok.claims ≠ [] →
      (Verify cfg getKey sigValid now tok).1
        = Except.error (VerifyErr.invalidClaims (validateTimes now cfg.clockSkew tok.claims)))
    ∧ (validateTimes now cfg.clockSkew tok.claims = [] →
        getStringClaim tok.claims "iss" ≠ some cfg.issuer →
        (Verify cfg getKey sigValid now tok).1 = Except.error VerifyErr.invalidIssuer)
    ∧ (validateTimes now cfg.clockSkew tok.claims = [] →
        getStringClaim tok.claims "iss" = some cfg.issuer →
        extractAudience tok.claims = Except.error () →
        (Verify cfg getKey sigValid now tok).1 = Except.error VerifyErr.invalidAudienceType)
    ∧ (∀ auds, validateTimes now cfg.clockSkew tok.claims = [] →
        getStringClaim tok.claims "iss" = some cfg.issuer →
        extractAudience tok.claims = Except.ok auds →
        containsAudience auds cfg.audience = false →
        (Verify cfg getKey sigValid now tok).1 = Except.error VerifyErr.audienceMismatch) := by
  rw [verify_reduction_after_signature cfg getKey sigValid now tok a kid pk
    halg hrsa hkid hkey hsig]
  refine ⟨?_, ?_, ?_, ?_⟩
  · intro hne
    cases hvt : validateTimes now cfg.clockSkew tok.claims with
    | nil => exact absurd hvt hne
    | cons e rest => simp [hvt]
  · intro hvt hiss
    simp [hvt, extractClaims_bad_issuer cfg tok.claims hiss]
  · intro hvt hiss haud
    simp [hvt, extractClaims_bad_aud_type cfg tok.claims hiss haud]
  · intro auds hvt hiss haud hmem
    simp [hvt, extractClaims_aud_mismatch cfg tok.claims auds hiss haud hmem]

/-- C4 counterexample: a token that is simultaneously expired and carries a
wrong issuer.  The claim's order (issuer first) predicts the issuer error;
the code reports the expiration error, because `jwt.Parse` validates
`exp`/`nbf` before `Verify` ever compares the issuer. -/
theorem C4_counterexample :
    getStringClaim
        [("iss", JSON.str "evil"), ("aud", JSON.str "robohub"),
         ("repository", JSON.str "owner/repo"), ("ref", JSON.str "refs/heads/main"),
         ("actor", JSON.str "octo"), ("run_id", JSON.str "1"),
         ("workflow_ref", JSON.str "wf.yml"), ("exp", JSON.num 100)] "iss"
      ≠ some "https://token.actions.example" ∧
    (Verify ⟨"https://token.actions.example", "robohub", 0⟩
        (fun _ => Except.ok ⟨91, 3⟩) (fun _ _ => true) 1000
        ⟨[("alg", JSON.str "RS256"), ("kid", JSON.str "k1")],
         [("iss", JSON.str "evil"), ("aud", JSON.str "robohub"),
          ("repository", JSON.str "owner/repo"), ("ref", JSON.str "refs/heads/main"),
          ("actor", JSON.str "octo"), ("run_id", JSON.str "1"),
          ("workflow_ref", JSON.str "wf.yml"), ("exp", JSON.num 100)], "s"⟩).1
      = Except.error (VerifyErr.invalidClaims [ClaimVErr.expired]) ∧
    VerifyErr.invalidClaims [ClaimVErr.expired] ≠ VerifyErr.invalidIssuer := by
  refine ⟨by decide, ?_, by decide⟩
  with_unfolding_all rfl

/-- Witness for C4[amended]: with valid times and a wrong issuer, the
issuer error is reported. -/
theorem C4_witness :
    (Verify ⟨"https://token.actions.example", "robohub", 0⟩
        (fun _ => Except.ok ⟨91, 3⟩) (fun _ _ => true) 1000
        ⟨[("alg", JSON.str "RS256"), ("kid", JSON.str "k1")],
         [("iss", JSON.str "evil"), ("aud", JSON.str "robohub"),
          ("exp", JSON.num 2000)], "s"⟩).1
      = Except.error VerifyErr.invalidIssuer :=
  (C4_time_then_issuer_then_audience ⟨"https://token.actions.example", "robohub", 0⟩
      (fun _ => Except.ok ⟨91, 3⟩) (fun _ _ => true) 1000
      ⟨[("alg", JSON.str "RS256"), ("kid", JSON.str "k1")],
       [("iss", JSON.str "evil"), ("aud", JSON.str "robohub"),
        ("exp", JSON.num 2000)], "s"⟩
      "RS256" "k1" ⟨91, 3⟩ (by rfl) (by rfl) (by rfl) (by rfl) (by rfl)).2.1
    (by with_unfolding_all rfl) (by decide)

end Robohub.oidc

namespace Robohub.oidc

/-- Reduction of `extractClaims` once issuer, audience and the three
required string claims have passed: what remains is the run-id check, the
workflow fallback and the timestamp extraction. -/
theorem extractClaims_reduce_to_run_id
    (cfg : VerifierCfg) (claims : List (String × JSON))
    (auds : List String) (repo ref actor : String)
    (hiss : getStringClaim claims "iss" = some cfg.issuer)
    (haud : extractAudience claims = Except.ok auds)
    (hmem : containsAudience auds cfg.audience = true)
    (hrepo : getNonEmptyString claims "repository" = some repo)
    (href : getNonEmptyString claims "ref" = some ref)
    (hact : getNonEmptyString claims "actor" = some actor) :
    extractClaims cfg claims =
      (if extractRunID claims = "" then Except.error VerifyErr.missingRunID
       else if extractWorkflow claims = "" then Except.error VerifyErr.missingWorkflow
       else Except.ok {
         Repository := repo
         Ref := ref
         Actor := actor
         RunID := extractRunID claims
         Workflow := extractWorkflow claims
         IssuedAt := extractTimestamp claims "iat"
         ExpiresAt := extractTimestamp claims "exp" }) := by
  unfold extractClaims
  rw [if_neg (by simp [hiss]), haud]
  simp [hmem, hrepo, href, hact]

/-- `%.0f` on a non-negative integral value renders its exact decimal
digits. -/
theorem goFmtDot0_int (n : ℤ) (h : 0 ≤ n) : goFmtDot0 (n : ℚ) = n.toNat.repr := by
  unfold goFmtDot0 roundHalfEven
  have h0 : ¬ ((n : ℚ) < 0) := by exact_mod_cast not_lt.mpr h
  rw [if_neg h0]
  have hf : ⌊(n : ℚ)⌋ = n := Int.floor_intCast n
  rw [hf]
  have hz : (n : ℚ) - (n : ℤ) = 0 := by ring
  rw [hz]
  norm_num

/-- `Nat.toDigitsCore` never returns an empty digit list when given fuel or
a non-empty accumulator. -/
theorem toDigitsCore_ne_nil (b : ℕ) :
    ∀ (fuel n : ℕ) (ds : List Char), (0 < fuel ∨ ds ≠ []) →
      Nat.toDigitsCore b fuel n ds ≠ [] := by
  intro fuel
  induction fuel with
  | zero =>
      intro n ds h
      rcases h with h | h
      · exact absurd h (by omega)
      · simpa [Nat.toDigitsCore] using h
  | succ f ih =>
      intro n ds _
      simp only [Nat.toDigitsCore]
      split
      · simp
      · exact ih (n / b) (Nat.digitChar (n % b) :: ds) (Or.inr (by simp))

/-- The decimal representation of a natural number is never the empty
string. -/
theorem nat_repr_ne_empty (n : ℕ) : Nat.repr n ≠ "" := by
  unfold Nat.repr Nat.toDigits
  intro h
  have hdata : Nat.toDigitsCore 10 (n + 1) n [] = [] := by
    have hc := congrArg String.data h
    simpa [List.asString] using hc
  exact toDigitsCore_ne_nil 10 (n + 1) n [] (Or.inl (by omega)) hdata

/-- `%.0f` output is never empty. -/
theorem goFmtDot0_ne_empty (q : ℚ) : goFmtDot0 q ≠ "" := by
  unfold goFmtDot0
  split
  · intro hcontra
    have hc := congrArg String.length hcontra
    simp at hc
    exact absurd hc.1 (by decide)
  · exact nat_repr_ne_empty (roundHalfEven q).toNat

/-- C5[amended]: within a token whose earlier checks (signature, time
claims, issuer, audience, repository, ref, actor) all pass and whose
workflow claim is present, the run identifier is accepted as a non-empty
string verbatim, or as a numeric value rendered with `%.0f` — rounding to
the nearest integer with ties to even and keeping the sign, so an integral
value renders its exact digits but `42.9` renders as "43", not "42" — while
an absent, empty-string or other-typed run identifier fails `Verify` with
the distinct missing-run-id error. -/
theorem C5_run_id_string_or_number
    (cfg : VerifierCfg) (getKey : String → Except GetKeyErr PubKey)
    (sigValid : PubKey → JWT → Bool) (now : ℚ) (tok : JWT)
    (a kid : String) (pk : PubKey) (auds : List String)
    (repo ref actor wf : String)
    (halg : jlookup "alg" tok.header = some (JSON.str a))
    (hrsa : getSigningMethod a = some SigningMethod.rsa)
    (hkid : jlookup "kid" tok.header = some (JSON.str kid))
    (hkey : getKey kid = Except.ok pk)
    (hsig : sigValid pk tok = true)
    (hvt : validateTimes now cfg.clockSkew tok.claims = [])
    (hiss : getStringClaim tok.claims "iss" = some cfg.issuer)
    (haud : extractAudience tok.claims = Except.ok auds)
    (hmem : containsAudience auds cfg.audience = true)
    (hrepo : getNonEmptyString tok.claims "repository" = some repo)
    (href : getNonEmptyString tok.claims "ref" = some ref)
    (hact : getNonEmptyString tok.claims "actor" = some actor)
    (hwf : extractWorkflow tok.claims = wf)
    (hwfne : wf ≠ "") :
    (∀ s, jlookup "run_id" tok.claims = some (JSON.str s) → s ≠ "" →
      (Verify cfg getKey sigValid now tok).1 = Except.ok
        ⟨repo, ref, actor, s, wf,
         extractTimestamp tok.claims "iat", extractTimestamp tok.claims "exp"⟩)
    ∧ (∀ q : ℚ, jlookup "run_id" tok.claims = some (JSON.num q) →
      (Verify cfg getKey sigValid now tok).1 = Except.ok
        ⟨repo, ref, actor, goFmtDot0 q, wf,
         extractTimestamp tok.claims "iat", extractTimestamp tok.claims "exp"⟩)
    ∧ (∀ n : ℤ, 0 ≤ n → jlookup "run_id" tok.claims = some (JSON.num (n : ℚ)) →
      (Verify cfg getKey sigValid now tok).1 = Except.ok
        ⟨repo, ref, actor, n.toNat.repr, wf,
         extractTimestamp tok.claims "iat", extractTimestamp tok.claims "exp"⟩)
    ∧ (jlookup "run_id" tok.claims = none →
      (Verify cfg getKey sigValid now tok).1 = Except.error VerifyErr.missingRunID)
    ∧ (jlookup "run_id" tok.claims = some (JSON.str "") →
      (Verify cfg getKey sigValid now tok).1 = Except.error VerifyErr.missingRunID)
    ∧ (∀ j, jlookup "run_id" tok.claims = some j →
        (∀ s, j ≠ JSON.str s) → (∀ q : ℚ, j ≠ JSON.num q) →
      (Verify cfg getKey sigValid now tok).1 = Except.error VerifyErr.missingRunID) := by
  rw [verify_reduction_after_signature cfg getKey sigValid now tok a kid pk
    halg hrsa hkid hkey hsig]
  rw [hvt]
  simp only []
  rw [extractClaims_reduce_to_run_id cfg tok.claims auds repo ref actor
    hiss haud hmem hrepo href hact]
  have hrender : ∀ s, jlookup "run_id" tok.claims = some (JSON.str s) →
      extractRunID tok.claims = s := by
    intro s hs
    unfold extractRunID
    rw [hs]
  have hrenderNum : ∀ q : ℚ, jlookup "run_id" tok.claims = some (JSON.num q) →
      extractRunID tok.claims = goFmtDot0 q := by
    intro q hq
    unfold extractRunID
    rw [hq]
  have hgoNe : ∀ q : ℚ, goFmtDot0 q ≠ "" := fun q => goFmtDot0_ne_empty q
  refine ⟨?_, ?_, ?_, ?_, ?_, ?_⟩
  · intro s hs hne
    rw [hrender s hs, if_neg hne, hwf, if_neg hwfne]
  · intro q hq
    rw [hrenderNum q hq, if_neg (hgoNe q), hwf, if_neg hwfne]
  · intro n hn hq
    rw [hrenderNum (n : ℚ) hq, if_neg (hgoNe (n : ℚ)), hwf, if_neg hwfne,
      goFmtDot0_int n hn]
  · intro habs
    have : extractRunID tok.claims = "" := by
      unfold extractRunID
      rw [habs]
    rw [this]
    simp
  · intro hemp
    have : extractRunID tok.claims = "" := by
      unfold extractRunID
      rw [hemp]
    rw [this]
    simp
  · intro j hj hnstr hnnum
    have : extractRunID tok.claims = "" := by
      unfold extractRunID
      rw [hj]
      cases j with
      | str s => exact absurd rfl (hnstr s)
      | num q => exact absurd rfl (hnnum q)
      | bool b => rfl
      | null => rfl
      | arr xs => rfl
      | obj fs => rfl
    rw [this]
    simp

end Robohub.oidc

namespace Robohub.oidc

/-- C5 counterexample: a run identifier of 42.9 is rendered by
`fmt.Sprintf("%.0f", ...)` as "43" — the fractional part is rounded, not
discarded — and `Verify` accepts the token with RunID "43". -/
theorem C5_counterexample :
    extractRunID [("run_id", JSON.num (429/10))] = "43" ∧
    (Verify ⟨"I", "A", 0⟩ (fun _ => Except.ok ⟨91, 3⟩) (fun _ _ => true) 0
        ⟨[("alg", JSON.str "RS256"), ("kid", JSON.str "k1")],
         [("iss", JSON.str "I"), ("aud", JSON.str "A"),
          ("repository", JSON.str "owner/repo"), ("ref", JSON.str "refs/heads/main"),
          ("actor", JSON.str "octo"), ("run_id", JSON.num (429/10)),
          ("workflow_ref", JSON.str "wf.yml")], "s"⟩).1
      = Except.ok ⟨"owner/repo", "refs/heads/main", "octo", "43", "wf.yml",
          GoTime.zero, GoTime.zero⟩ ∧
    ("43" : String) ≠ "42" := by
  refine ⟨?_, ?_, by decide⟩
  · with_unfolding_all rfl
  · with_unfolding_all rfl

/-- Witness for C5[amended]: a string run identifier is returned verbatim
on an otherwise fully valid token. -/
theorem C5_witness :
    (Verify ⟨"I", "A", 0⟩ (fun _ => Except.ok ⟨91, 3⟩) (fun _ _ => true) 0
        ⟨[("alg", JSON.str "RS256"), ("kid", JSON.str "k1")],
         [("iss", JSON.str "I"), ("aud", JSON.str "A"),
          ("repository", JSON.str "owner/repo"), ("ref", JSON.str "refs/heads/main"),
          ("actor", JSON.str "octo"), ("run_id", JSON.str "123"),
          ("workflow_ref", JSON.str "wf.yml")], "s"⟩).1
      = Except.ok ⟨"owner/repo", "refs/heads/main", "octo", "123", "wf.yml",
          GoTime.zero, GoTime.zero⟩ :=
  (C5_run_id_string_or_number ⟨"I", "A", 0⟩ (fun _ => Except.ok ⟨91, 3⟩)
      (fun _ _ => true) 0
      ⟨[("alg", JSON.str "RS256"), ("kid", JSON.str "k1")],
       [("iss", JSON.str "I"), ("aud", JSON.str "A"),
        ("repository", JSON.str "owner/repo"), ("ref", JSON.str "refs/heads/main"),
        ("actor", JSON.str "octo"), ("run_id", JSON.str "123"),
        ("workflow_ref", JSON.str "wf.yml")], "s"⟩
      "RS256" "k1" ⟨91, 3⟩ ["A"] "owner/repo" "refs/heads/main" "octo" "wf.yml"
      (by rfl) (by rfl) (by rfl) (by rfl) (by rfl) (by rfl) (by rfl) (by rfl)
      (by rfl) (by rfl) (by rfl) (by rfl) (by rfl) (by decide)).1
    "123" (by rfl) (by decide)

end Robohub.oidc

namespace Robohub.oidc

/-- C10[amended]: an assertion whose `exp` and `nbf` claims are entirely
absent, and whose `iat` is absent or not a JSON number, still passes
`Verify` when the signature and the remaining claims are valid — the
resulting VerifiedClaims carries the zero timestamp for the missing fields
and expiration is not enforced at all.  (An `exp` claim that is present but
not a JSON number instead fails parsing; see the counterexample.) -/
theorem C10_missing_timestamps_tolerated
    (cfg : VerifierCfg) (getKey : String → Except GetKeyErr PubKey)
    (sigValid : PubKey → JWT → Bool) (now : ℚ) (tok : JWT)
    (a kid : String) (pk : PubKey) (auds : List String)
    (repo ref actor rid wf : String)
    (halg : jlookup "alg" tok.header = some (JSON.str a))
    (hrsa : getSigningMethod a = some SigningMethod.rsa)
    (hkid : jlookup "kid" tok.header = some (JSON.str kid))
    (hkey : getKey kid = Except.ok pk)
    (hsig : sigValid pk tok = true)
    (hiss : getStringClaim tok.claims "iss" = some cfg.issuer)
    (haud : extractAudience tok.claims = Except.ok auds)
    (hmem : containsAudience auds cfg.audience = true)
    (hrepo : getNonEmptyString tok.claims "repository" = some repo)
    (href : getNonEmptyString tok.claims "ref" = some ref)
    (hact : getNonEmptyString tok.claims "actor" = some actor)
    (hrun : jlookup "run_id" tok.claims = some (JSON.str rid))
    (hridne : rid ≠ "")
    (hwf : extractWorkflow tok.claims = wf)
    (hwfne : wf ≠ "")
    (hexp : jlookup "exp" tok.claims = none)
    (hnbf : jlookup "nbf" tok.claims = none)
    (hiat : ∀ q : ℚ, jlookup "iat" tok.claims ≠ some (JSON.num q)) :
    (Verify cfg getKey sigValid now tok).1 =
      Except.ok ⟨repo, ref, actor, rid, wf, GoTime.zero, GoTime.zero⟩ := by
  have hvt : validateTimes now cfg.clockSkew tok.claims = [] := by
    unfold validateTimes parseNumericDate
    rw [hexp, hnbf]
    rfl
  rw [verify_reduction_after_signature cfg getKey sigValid now tok a kid pk
    halg hrsa hkid hkey hsig]
  rw [hvt]
  simp only []
  rw [extractClaims_reduce_to_run_id cfg tok.claims auds repo ref actor
    hiss haud hmem hrepo href hact]
  have hrid : extractRunID tok.claims = rid := by
    unfold extractRunID
    rw [hrun]
  have hiatz : extractTimestamp tok.claims "iat" = GoTime.zero := by
    unfold extractTimestamp
    cases hj : jlookup "iat" tok.claims with
    | none => rfl
    | some j =>
        cases j with
        | num q => exact absurd hj (hiat q)
        | str s => rfl
        | bool b => rfl
        | null => rfl
        | arr xs => rfl
        | obj fs => rfl
  have hexpz : extractTimestamp tok.claims "exp" = GoTime.zero := by
    unfold extractTimestamp
    rw [hexp]
  rw [hrid, if_neg hridne, hwf, if_neg hwfne, hiatz, hexpz]

/-- C10 counterexample: an `exp` claim that is present but a string — "not
a JSON number" — does NOT pass `Verify`: MapClaims.parseNumericDate reports
a type error and `jwt.Parse` fails, so the claim's "absent or not a JSON
number" disjunction is wrong for exp. -/
theorem C10_counterexample :
    (Verify ⟨"I", "A", 0⟩ (fun _ => Except.ok ⟨91, 3⟩) (fun _ _ => true) 0
        ⟨[("alg", JSON.str "RS256"), ("kid", JSON.str "k1")],
         [("iss", JSON.str "I"), ("aud", JSON.str "A"),
          ("repository", JSON.str "owner/repo"), ("ref", JSON.str "refs/heads/main"),
          ("actor", JSON.str "octo"), ("run_id", JSON.str "123"),
          ("workflow_ref", JSON.str "wf.yml"),
          ("exp", JSON.str "9999999999")], "s"⟩).1
      = Except.error (VerifyErr.invalidClaims [ClaimVErr.expType]) := by
  with_unfolding_all rfl

/-- Witness for C10[amended]: a token with no exp, nbf or iat claims passes
with zero timestamps. -/
theorem C10_witness :
    (Verify ⟨"I", "A", 0⟩ (fun _ => Except.ok ⟨91, 3⟩) (fun _ _ => true) 0
        ⟨[("alg", JSON.str "RS256"), ("kid", JSON.str "k1")],
         [("iss", JSON.str "I"), ("aud", JSON.str "A"),
          ("repository", JSON.str "owner/repo"), ("ref", JSON.str "refs/heads/main"),
          ("actor", JSON.str "octo"), ("run_id", JSON.str "123"),
          ("workflow_ref", JSON.str "wf.yml")], "s"⟩).1
      = Except.ok ⟨"owner/repo", "refs/heads/main", "octo", "123", "wf.yml",
          GoTime.zero, GoTime.zero⟩ :=
  C10_missing_timestamps_tolerated ⟨"I", "A", 0⟩ (fun _ => Except.ok ⟨91, 3⟩)
    (fun _ _ => true) 0
    ⟨[("alg", JSON.str "RS256"), ("kid", JSON.str "k1")],
     [("iss", JSON.str "I"), ("aud", JSON.str "A"),
      ("repository", JSON.str "owner/repo"), ("ref", JSON.str "refs/heads/main"),
      ("actor", JSON.str "octo"), ("run_id", JSON.str "123"),
      ("workflow_ref", JSON.str "wf.yml")], "s"⟩
    "RS256" "k1" ⟨91, 3⟩ ["A"] "owner/repo" "refs/heads/main" "octo" "123" "wf.yml"
    (by rfl) (by rfl) (by rfl) (by rfl) (by rfl) (by rfl) (by rfl) (by rfl)
    (by rfl) (by rfl) (by rfl) (by rfl) (by decide) (by rfl) (by decide)
    (by rfl) (by rfl) (by intro q h; simp [jlookup] at h)

end Robohub.oidc

namespace Robohub.oidc

/-- Value of one character of the base64url alphabet
(`encoding/base64.RawURLEncoding`), `none` for an invalid character. -/
def b64Val (c : Char) : Option ℕ :=
  if 'A' ≤ c ∧ c ≤ 'Z' then some (c.toNat - 65)
  else if 'a' ≤ c ∧ c ≤ 'z' then some (c.toNat - 97 + 26)
  else if '0' ≤ c ∧ c ≤ '9' then some (c.toNat - 48 + 52)
  else if c = '-' then some 62
  else if c = '_' then some 63
  else none

/-- Grouped unpadded base64 decoding: four symbols to three bytes, a final
group of two or three symbols to one or two bytes, a final group of one
symbol is corrupt input. -/
def b64Chunk : List ℕ → Option (List ℕ)
  | [] => some []
  | [_] => none
  | [a, b] => some [a * 4 + b / 16]
  | [a, b, c] => some [a * 4 + b / 16, (b % 16) * 16 + c / 4]
  | a :: b :: c :: d :: rest =>
      match b64Chunk rest with
      | none => none
      | some tail => some ([a * 4 + b / 16, (b % 16) * 16 + c / 4, (c % 4) * 64 + d] ++ tail)

/-- `base64.RawURLEncoding.DecodeString`. -/
def rawURLDecode (s : String) : Option (List ℕ) :=
  match s.toList.mapM b64Val with
  | none => none
  | some vals => b64Chunk vals

/-- Big-endian byte-list to natural: `new(big.Int).SetBytes` for the
modulus, and the `e = e*256 + int(b)` loop for the exponent. -/
def beBytesToNat (bs : List ℕ) : ℕ :=
  bs.foldl (fun n b => n * 256 + b) 0

/-- `parseRSAPublicKey` in verifier.go: decode the base64url modulus and
exponent; failure of either decode fails the parse. -/
def parseRSAPublicKey (nStr eStr : String) : Option PubKey :=
  match rawURLDecode nStr with
  | none => none
  | some nB =>
      match rawURLDecode eStr with
      | none => none
      | some eB => some ⟨beBytesToNat nB, beBytesToNat eB⟩

/-- One entry of the decoded JWKS document. -/
structure JWKSEntry where
  Kid : String
  Kty : String
  Use : String
  N : String
  E : String
deriving Repr, DecidableEq

/-- The `JWKSCache` struct: URL and TTL are fixed at construction; the key
set and fetch timestamp are the mutable state guarded by the RWMutex. -/
structure JWKSCache where
  url : String
  ttl : ℚ
  keys : List (String × PubKey)
  fetchedAt : ℚ
deriving Repr, DecidableEq

/-- Go map lookup over the cached key set. -/
def klookup (key : String) (m : List (String × PubKey)) : Option PubKey :=
  match m with
  | [] => none
  | (k, v) :: rest => if k = key then some v else klookup key rest

/-- Go map assignment `m[k] = v`: replace an existing binding or append. -/
def insertKV (m : List (String × PubKey)) (k : String) (v : PubKey) :
    List (String × PubKey) :=
  match m with
  | [] => [(k, v)]
  | (k0, v0) :: rest => if k0 = k then (k, v) :: rest else (k0, v0) :: insertKV rest k v

/-- The outcome of the HTTP body handling of one fetch attempt. -/
inductive BodyRead where
  | readFailed                       -- io.ReadAll fails
  | badJSON                          -- json.Unmarshal fails
  | decoded (entries : List JWKSEntry)
deriving Repr, DecidableEq

/-- The outcome of one outbound JWKS fetch attempt, as the environment
delivers it to `fetchJWKS`. -/
inductive FetchOutcome where
  | transportError                   -- request creation or client.Do fails
  | response (code : ℕ) (body : BodyRead)
deriving Repr, DecidableEq

/-- One loop iteration of `fetchJWKS`: skip entries whose key type is not
RSA and entries whose modulus/exponent fail to parse. -/
def addJWKSEntry (acc : List (String × PubKey)) (k : JWKSEntry) :
    List (String × PubKey) :=
  if k.Kty ≠ "RSA" then acc
  else
    match parseRSAPublicKey k.N k.E with
    | none => acc
    | some pk => insertKV acc k.Kid pk

/-- `JWKSCache.fetchJWKS`: transport failure, a non-200 status, a body read
failure and an undecodable payload are errors that leave the receiver
untouched; a decoded payload replaces the whole key set and stamps the
fetch time. -/
def fetchJWKS (c : JWKSCache) (now : ℚ) (outcome : FetchOutcome) :
    Except String JWKSCache :=
  match outcome with
  | .transportError => .error "failed to fetch JWKS"
  | .response code body =>
      if code ≠ 200 then .error "unexpected status code"
      else
        match body with
        | .readFailed => .error "failed to read response body"
        | .badJSON => .error "failed to unmarshal JWKS"
        | .decoded entries =>
            .ok { c with keys := entries.foldl addJWKSEntry [], fetchedAt := now }

/-- The slow path of `GetKey` under the write lock: re-check the cache
(the double-check), then fetch and look the kid up in the fresh set. -/
def getKeySlow (c : JWKSCache) (now : ℚ) (kid : String) (outcome : FetchOutcome) :
    Except GetKeyErr PubKey × JWKSCache :=
  match klookup kid c.keys with
  | some key =>
      if now - c.fetchedAt < c.ttl then (.ok key, c)
      else
        match fetchJWKS c now outcome with
        | .error msg => (.error (.fetchFailed msg), c)
        | .ok c2 =>
            match klookup kid c2.keys with
            | some k2 => (.ok k2, c2)
            | none => (.error (.notFound kid), c2)
  | none =>
      match fetchJWKS c now outcome with
      | .error msg => (.error (.fetchFailed msg), c)
      | .ok c2 =>
          match klookup kid c2.keys with
          | some k2 => (.ok k2, c2)
          | none => (.error (.notFound kid), c2)

/-- `JWKSCache.GetKey`: the read-locked fast path returns a fresh cached
key; otherwise the slow path runs.  The second component is the cache
state after the call. -/
def JWKSCache.GetKey (c : JWKSCache) (now : ℚ) (kid : String)
    (outcome : FetchOutcome) : Except GetKeyErr PubKey × JWKSCache :=
  match klookup kid c.keys with
  | some key =>
      if now - c.fetchedAt < c.ttl then (.ok key, c)
      else getKeySlow c now kid outcome
  | none => getKeySlow c now kid outcome

/-- A fetch outcome on which `fetchJWKS` fails. -/
def FetchOutcome.isFailure : FetchOutcome → Bool
  | .transportError => true
  | .response code body =>
      decide (code ≠ 200) ||
        (match body with
         | .decoded _ => false
         | _ => true)

end Robohub.oidc

namespace Robohub.oidc

/-- `fetchJWKS` returns an error exactly on failure outcomes. -/
theorem fetchJWKS_failure (c : JWKSCache) (now : ℚ) (outcome : FetchOutcome)
    (h : outcome.isFailure = true) :
    ∃ msg, fetchJWKS c now outcome = Except.error msg := by
  cases outcome with
  | transportError => exact ⟨"failed to fetch JWKS", rfl⟩
  | response code body =>
      by_cases hc : code ≠ 200
      · exact ⟨"unexpected status code", by simp only [fetchJWKS]; rw [if_pos hc]⟩
      · cases body with
        | readFailed =>
            exact ⟨"failed to read response body", by simp only [fetchJWKS]; rw [if_neg hc]⟩
        | badJSON =>
            exact ⟨"failed to unmarshal JWKS", by simp only [fetchJWKS]; rw [if_neg hc]⟩
        | decoded entries =>
            exfalso
            simp [FetchOutcome.isFailure, hc] at h

/-- A failed fetch leaves the slow path's cache state untouched. -/
theorem getKeySlow_state_on_failure (c : JWKSCache) (now : ℚ) (kid : String)
    (outcome : FetchOutcome) (h : outcome.isFailure = true) :
    (getKeySlow c now kid outcome).2 = c := by
  obtain ⟨msg, hmsg⟩ := fetchJWKS_failure c now outcome h
  unfold getKeySlow
  rw [hmsg]
  split
  · split
    · rfl
    · rfl
  · rfl

/-- Inserting a binding makes its key present. -/
theorem klookup_insertKV_self (m : List (String × PubKey)) (k : String) (v : PubKey) :
    klookup k (insertKV m k v) = some v := by
  induction m with
  | nil => simp [insertKV, klookup]
  | cons hd tl ih =>
      obtain ⟨k0, v0⟩ := hd
      by_cases h : k0 = k
      · simp [insertKV, h, klookup]
      · simp [insertKV, h, klookup, ih]

/-- Inserting a binding does not change other keys. -/
theorem klookup_insertKV_other (m : List (String × PubKey)) (k kk : String)
    (v : PubKey) (h : kk ≠ k) :
    klookup k (insertKV m kk v) = klookup k m := by
  induction m with
  | nil => simp [insertKV, klookup, h]
  | cons hd tl ih =>
      obtain ⟨k0, v0⟩ := hd
      by_cases h0 : k0 = kk
      · subst h0
        simp [insertKV, klookup, h]
      · simp [insertKV, h0, klookup, ih]

/-- One fetch-loop iteration never removes a present key. -/
theorem klookup_addJWKSEntry_isSome (acc : List (String × PubKey)) (en : JWKSEntry)
    (k : String) (h : (klookup k acc).isSome) :
    (klookup k (addJWKSEntry acc en)).isSome := by
  unfold addJWKSEntry
  split
  · exact h
  · split
    · exact h
    · by_cases hk : en.Kid = k
      · subst hk
        rw [klookup_insertKV_self]
        rfl
      · rw [klookup_insertKV_other _ _ _ _ hk]
        exact h

/-- The fetch loop never removes a present key. -/
theorem foldl_addJWKSEntry_isSome (entries : List JWKSEntry) :
    ∀ (acc : List (String × PubKey)) (k : String), (klookup k acc).isSome →
      (klookup k (entries.foldl addJWKSEntry acc)).isSome := by
  induction entries with
  | nil => intro acc k h; simpa using h
  | cons e0 rest ih =>
      intro acc k h
      simp only [List.foldl_cons]
      exact ih (addJWKSEntry acc e0) k (klookup_addJWKSEntry_isSome acc e0 k h)

/-- Every parseable RSA entry of the payload ends up in the rebuilt key
set, regardless of how many other entries are skipped. -/
theorem foldl_addJWKSEntry_mem (entries : List JWKSEntry) :
    ∀ (acc : List (String × PubKey)) (en : JWKSEntry), en ∈ entries →
      en.Kty = "RSA" → (parseRSAPublicKey en.N en.E).isSome →
      (klookup en.Kid (entries.foldl addJWKSEntry acc)).isSome := by
  induction entries with
  | nil => intro acc en h; cases h
  | cons e0 rest ih =>
      intro acc en hmem hk hp
      rcases List.mem_cons.mp hmem with heq | hmem2
      · subst heq
        simp only [List.foldl_cons]
        apply foldl_addJWKSEntry_isSome
        unfold addJWKSEntry
        rw [if_neg (by simp [hk])]
        obtain ⟨pk, hpk⟩ := Option.isSome_iff_exists.mp hp
        rw [hpk, klookup_insertKV_self]
        rfl
      · simp only [List.foldl_cons]
        exact ih (addJWKSEntry acc e0) en hmem2 hk hp

/-- C7: (i) on any fetch outcome that is an error (transport failure,
non-200 status, unreadable or undecodable payload), `GetKey` leaves the
cached key set and fetch timestamp exactly as they were; (ii) when
additionally the fast path misses (kid absent or cache stale), `GetKey`
reports a fetch error; (iii) a decoded payload always succeeds, stamping
the fetch time, with individually unparseable or non-RSA entries skipped
without aborting: every parseable RSA entry is present afterwards. -/
theorem C7_failed_fetch_preserves_cache (c : JWKSCache) (now : ℚ) (kid : String)
    (outcome : FetchOutcome) (entries : List JWKSEntry) :
    (outcome.isFailure = true → (c.GetKey now kid outcome).2 = c)
    ∧ (outcome.isFailure = true →
        (klookup kid c.keys = none ∨ ¬ (now - c.fetchedAt < c.ttl)) →
        ∃ msg, (c.GetKey now kid outcome).1 = Except.error (GetKeyErr.fetchFailed msg))
    ∧ (∃ c2, fetchJWKS c now (FetchOutcome.response 200 (BodyRead.decoded entries))
          = Except.ok c2 ∧
        c2.fetchedAt = now ∧ c2.url = c.url ∧ c2.ttl = c.ttl ∧
        (∀ en ∈ entries, en.Kty = "RSA" → (parseRSAPublicKey en.N en.E).isSome →
          (klookup en.Kid c2.keys).isSome)) := by
  refine ⟨?_, ?_, ?_⟩
  · intro h
    unfold JWKSCache.GetKey
    split
    · split
      · rfl
      · exact getKeySlow_state_on_failure c now kid outcome h
    · exact getKeySlow_state_on_failure c now kid outcome h
  · intro h hmiss
    obtain ⟨msg, hmsg⟩ := fetchJWKS_failure c now outcome h
    refine ⟨msg, ?_⟩
    unfold JWKSCache.GetKey getKeySlow
    rw [hmsg]
    cases hk : klookup kid c.keys with
    | none => simp [hk]
    | some key =>
        have hstale : ¬ (now - c.fetchedAt < c.ttl) := by
          rcases hmiss with hnone | hstale
          · rw [hk] at hnone; exact absurd hnone (by simp)
          · exact hstale
        simp [hk, hstale]
  · refine ⟨{ c with keys := entries.foldl addJWKSEntry [], fetchedAt := now },
      ?_, rfl, rfl, rfl, ?_⟩
    · simp [fetchJWKS]
    · intro en hmem hk hp
      exact foldl_addJWKSEntry_mem entries [] en hmem hk hp

end Robohub.oidc

namespace Robohub.oidc

/-- Witness for C7: a 500-status fetch on a stale single-key cache reports
a fetch error and preserves the cache state. -/
theorem C7_witness :
    ((JWKSCache.GetKey ⟨"https://example/jwks", 60, [("k1", ⟨5, 3⟩)], 0⟩ 100 "k1"
        (FetchOutcome.response 500 BodyRead.badJSON)).2
      = ⟨"https://example/jwks", 60, [("k1", ⟨5, 3⟩)], 0⟩) ∧
    (∃ msg, (JWKSCache.GetKey ⟨"https://example/jwks", 60, [("k1", ⟨5, 3⟩)], 0⟩ 100 "k1"
        (FetchOutcome.response 500 BodyRead.badJSON)).1
      = Except.error (GetKeyErr.fetchFailed msg)) :=
  have h := C7_failed_fetch_preserves_cache
    ⟨"https://example/jwks", 60, [("k1", ⟨5, 3⟩)], 0⟩ 100 "k1"
    (FetchOutcome.response 500 BodyRead.badJSON)
    [⟨"bad", "EC", "sig", "!!", "AQAB"⟩, ⟨"good", "RSA", "sig", "AQAB", "AQAB"⟩]
  ⟨h.1 (by decide), h.2.1 (by decide) (Or.inr (by with_unfolding_all decide))⟩

end Robohub.oidc

namespace Robohub.token

open Robohub Robohub.oidc

/-- `token.Minter`: HMAC secret and token TTL (whole seconds). -/
structure Minter where
  secret : String
  ttl : ℤ

/-- An HMAC-signed JWT produced by the minter: algorithm header, claims,
and the MAC over the signing input, modelled as the pair of the signing
secret and the signed claims. -/
structure HSToken where
  alg : String
  claims : List (String × JSON)
  mac : String × List (String × JSON)
deriving Repr

/-- `HS256` signing: the MAC determined by the secret and the payload. -/
def hsSign (secret : String) (claims : List (String × JSON)) :
    String × List (String × JSON) :=
  (secret, claims)

/-- Boolean equality of JSON values (constant-time MAC comparison is not
modelled; only the equality outcome matters). -/
def jsonBeq : JSON → JSON → Bool
  | JSON.str x, JSON.str y => x == y
  | JSON.num x, JSON.num y => x == y
  | JSON.bool x, JSON.bool y => x == y
  | JSON.null, JSON.null => true
  | JSON.arr [], JSON.arr [] => true
  | JSON.arr (x :: xs), JSON.arr (y :: ys) =>
      jsonBeq x y && jsonBeq (JSON.arr xs) (JSON.arr ys)
  | JSON.obj [], JSON.obj [] => true
  | JSON.obj ((k1, v1) :: xs), JSON.obj ((k2, v2) :: ys) =>
      k1 == k2 && jsonBeq v1 v2 && jsonBeq (JSON.obj xs) (JSON.obj ys)
  | _, _ => false
termination_by a _ => sizeOf a

/-- MAC comparison: same secret, same signed payload. -/
def macBeq (m1 m2 : String × List (String × JSON)) : Bool :=
  m1.1 == m2.1 && jsonBeq (JSON.obj m1.2) (JSON.obj m2.2)

/-- `types.RoboHubClaims` with Go zero values for every field. -/
structure RoboHubClaims where
  Issuer : String
  Subject : String
  Audience : String
  IssuedAt : ℤ
  ExpiresAt : ℤ
  JTI : String
  Repo : String
  Ref : String
  Actor : String
  RunID : String
  Scopes : List String
deriving Repr, DecidableEq

/-- The claim set built by `Minter.Mint` at time `now` (Unix seconds) with
the freshly generated random `jti` and `exp = now + ttl`.  (The only Go
error path of Mint is a signing failure of the HMAC primitive, which
cannot fail on this input shape, so Mint is modelled as infallible.) -/
def mintPayload (claims : VerifiedClaims) (now exp : ℤ) (jti : String) :
    List (String × JSON) :=
  [("iss", JSON.str "robohub-auth"),
   ("sub", JSON.str ("repo:" ++ claims.Repository)),
   ("aud", JSON.str "robohub-api"),
   ("iat", JSON.num (now : ℚ)),
   ("exp", JSON.num (exp : ℚ)),
   ("jti", JSON.str jti),
   ("repo", JSON.str claims.Repository),
   ("ref", JSON.str claims.Ref),
   ("actor", JSON.str claims.Actor),
   ("run_id", JSON.str claims.RunID),
   ("scopes", JSON.arr [JSON.str "ingest:build"])]

/-- `Minter.Mint` (see the doc comment above `mintPayload`). -/
def Minter.Mint (m : Minter) (claims : VerifiedClaims) (now : ℤ) (jti : String) :
    HSToken × ℤ :=
  let exp := now + m.ttl
  let payload := mintPayload claims now exp jti
  (⟨"HS256", payload, hsSign m.secret payload⟩, exp)

/-- The distinct error sites of `Minter.Validate`. -/
inductive ValidateErr where
  | unknownAlg (alg : String)
  | unexpectedSigningMethod (alg : String)
  | badSignature
  | invalidClaims (errs : List ClaimVErr)
deriving Repr, DecidableEq

/-- The type-tolerant claim extraction of `Minter.Validate`: each field is
set only when its type assertion succeeds and keeps the Go zero value
otherwise. -/
def extractRoboHub (claims : List (String × JSON)) : RoboHubClaims :=
  { Issuer := (getStringClaim claims "iss").getD ""
    Subject := (getStringClaim claims "sub").getD ""
    Audience := (getStringClaim claims "aud").getD ""
    IssuedAt :=
      match jlookup "iat" claims with
      | some (JSON.num q) => ratTrunc q
      | _ => 0
    ExpiresAt :=
      match jlookup "exp" claims with
      | some (JSON.num q) => ratTrunc q
      | _ => 0
    JTI := (getStringClaim claims "jti").getD ""
    Repo := (getStringClaim claims "repo").getD ""
    Ref := (getStringClaim claims "ref").getD ""
    Actor := (getStringClaim claims "actor").getD ""
    RunID := (getStringClaim claims "run_id").getD ""
    Scopes :=
      match jlookup "scopes" claims with
      | some (JSON.arr xs) =>
          xs.filterMap (fun item =>
            match item with
            | JSON.str s => some s
            | _ => none)
      | _ => [] }

/-- `Minter.Validate` at time `now`: `jwt.Parse` with the HMAC-only keyfunc
and no leeway (the alg must resolve and be the concrete
`*jwt.SigningMethodHMAC`, the MAC must verify, `exp`/`nbf` are validated),
then the tolerant claim extraction. -/
def Minter.Validate (m : Minter) (tok : HSToken) (now : ℚ) :
    Except ValidateErr RoboHubClaims :=
  match getSigningMethod tok.alg with
  | none => .error (.unknownAlg tok.alg)
  | some mth =>
      if mth ≠ SigningMethod.hmac then .error (.unexpectedSigningMethod tok.alg)
      else if macBeq tok.mac (hsSign m.secret tok.claims) = false then .error .badSignature
      else
        match validateTimes now 0 tok.claims with
        | [] => .ok (extractRoboHub tok.claims)
        | errs => .error (.invalidClaims errs)

end Robohub.token

namespace Robohub

/-- Truncation toward zero is the identity on integers. -/
theorem ratTrunc_intCast (n : ℤ) : ratTrunc (n : ℚ) = n := by
  unfold ratTrunc
  by_cases h : (n : ℚ) < 0
  · rw [if_pos h, Int.ceil_intCast]
  · rw [if_neg h, Int.floor_intCast]

end Robohub

namespace Robohub.token

open Robohub Robohub.oidc

/-- `jsonBeq` is reflexive. -/
theorem jsonBeq_refl : ∀ a : JSON, jsonBeq a a = true
  | JSON.str x => by simp [jsonBeq]
  | JSON.num x => by simp [jsonBeq]
  | JSON.bool x => by simp [jsonBeq]
  | JSON.null => by simp [jsonBeq]
  | JSON.arr [] => by simp [jsonBeq]
  | JSON.arr (x :: xs) => by
      rw [jsonBeq]
      simp [jsonBeq_refl x, jsonBeq_refl (JSON.arr xs)]
  | JSON.obj [] => by simp [jsonBeq]
  | JSON.obj ((k, v) :: xs) => by
      rw [jsonBeq]
      simp [jsonBeq_refl v, jsonBeq_refl (JSON.obj xs)]
termination_by a => sizeOf a

/-- MAC comparison is reflexive. -/
theorem macBeq_refl (m : String × List (String × JSON)) : macBeq m m = true := by
  unfold macBeq
  simp [jsonBeq_refl]

/-- C6: validating a freshly minted token with the same secret inside the
TTL window succeeds and returns exactly the minted claim set: issuer
"robohub-auth", subject `repo:<repository>`, audience "robohub-api",
repo/ref/actor/run-id equal to the input, the fresh jti, the fixed scope
list, and `exp = iat + ttl` exactly. -/
theorem C6_mint_validate_round_trip (secret : String) (ttl : ℤ)
    (claims : VerifiedClaims) (now : ℤ) (jti : String) (vnow : ℚ)
    (hwin : vnow < ((now + ttl : ℤ) : ℚ)) :
    Minter.Validate ⟨secret, ttl⟩ (Minter.Mint ⟨secret, ttl⟩ claims now jti).1 vnow
      = Except.ok ⟨"robohub-auth", "repo:" ++ claims.Repository, "robohub-api",
          now, now + ttl, jti, claims.Repository, claims.Ref, claims.Actor,
          claims.RunID, ["ingest:build"]⟩ := by
  have hsm : getSigningMethod "HS256" = some SigningMethod.hmac := by rfl
  have hvt : validateTimes vnow 0
      (mintPayload claims now (now + ttl) jti) = [] := by
    unfold validateTimes parseNumericDate
    have hexp : jlookup "exp" (mintPayload claims now (now + ttl) jti)
        = some (JSON.num ((now + ttl : ℤ) : ℚ)) := rfl
    have hnbf : jlookup "nbf" (mintPayload claims now (now + ttl) jti) = none := rfl
    rw [hexp, hnbf]
    dsimp only
    by_cases hq : ((now + ttl : ℤ) : ℚ) = 0
    · rw [if_pos hq]
      rfl
    · rw [if_neg hq]
      dsimp only
      have hlt : vnow < ((now + ttl : ℤ) : ℚ) + 0 := by rw [add_zero]; exact hwin
      rw [if_pos hlt]
      rfl
  have hex : extractRoboHub (mintPayload claims now (now + ttl) jti)
      = ⟨"robohub-auth", "repo:" ++ claims.Repository, "robohub-api",
         ratTrunc ((now : ℤ) : ℚ), ratTrunc ((now + ttl : ℤ) : ℚ), jti,
         claims.Repository, claims.Ref, claims.Actor, claims.RunID,
         ["ingest:build"]⟩ := rfl
  unfold Minter.Mint Minter.Validate
  simp only [hsm]
  rw [if_neg (by simp)]
  rw [if_neg (by simp [macBeq_refl])]
  simp only [hvt]
  rw [hex, ratTrunc_intCast, ratTrunc_intCast]

/-- Witness for C6 at a concrete claim set, secret and TTL. -/
theorem C6_witness :
    Minter.Validate ⟨"test-secret", 600⟩
        (Minter.Mint ⟨"test-secret", 600⟩
          ⟨"owner/repo", "refs/heads/main", "octo", "123", "wf.yml",
           GoTime.zero, GoTime.zero⟩ 1000 "jti-1").1 1500
      = Except.ok ⟨"robohub-auth", "repo:owner/repo", "robohub-api",
          1000, 1600, "jti-1", "owner/repo", "refs/heads/main", "octo", "123",
          ["ingest:build"]⟩ :=
  C6_mint_validate_round_trip "test-secret" 600
    ⟨"owner/repo", "refs/heads/main", "octo", "123", "wf.yml",
     GoTime.zero, GoTime.zero⟩ 1000 "jti-1" 1500
    (by with_unfolding_all decide)

end Robohub.token

namespace Robohub.ratelimit

/-- Modelled from the spec: the per-key token bucket implemented by the
external golang.org/x/time/rate library (not part of this repository).
Per §4.3 of the specification it has capacity `burst`, refills
continuously at `rate` tokens per second, consumes one token per allowed
call, and a failing allow consumes nothing. -/
structure Bucket where
  rate : ℚ
  burst : ℕ
  tokens : ℚ
  last : ℚ
deriving Repr, DecidableEq

/-- Modelled from the spec: continuous refill up to the burst capacity for
the elapsed time since the last update. -/
def Bucket.advance (b : Bucket) (now : ℚ) : Bucket :=
  { b with tokens := min (b.burst : ℚ) (b.tokens + b.rate * (now - b.last)), last := now }

/-- Modelled from the spec: consume one token when available, else fail
consuming nothing. -/
def Bucket.allow1 (b : Bucket) : Bool × Bucket :=
  if 1 ≤ b.tokens then (true, { b with tokens := b.tokens - 1 }) else (false, b)

/-- `ratelimit.Limiter`: the guarded key→bucket map plus the configured
rate and burst used for lazily created buckets. -/
structure Limiter where
  limiters : List (String × Bucket)
  rps : ℚ
  burst : ℕ
deriving Repr, DecidableEq

/-- `ratelimit.NewLimiter`. -/
def NewLimiter (rps : ℚ) (burst : ℕ) : Limiter :=
  { limiters := [], rps := rps, burst := burst }

/-- Go map lookup over the bucket map. -/
def blookup (key : String) (m : List (String × Bucket)) : Option Bucket :=
  match m with
  | [] => none
  | (k, v) :: rest => if k = key then some v else blookup key rest

/-- Go map assignment over the bucket map. -/
def binsert (m : List (String × Bucket)) (k : String) (v : Bucket) :
    List (String × Bucket) :=
  match m with
  | [] => [(k, v)]
  | (k0, v0) :: rest => if k0 = k then (k, v) :: rest else (k0, v0) :: binsert rest k v

/-- `Limiter.getLimiter`: double-checked lazy creation; a fresh bucket
starts full (modelled from the spec's "capacity equal to configured
burst"). -/
def Limiter.getLimiter (l : Limiter) (key : String) (now : ℚ) : Bucket × Limiter :=
  match blookup key l.limiters with
  | some b => (b, l)
  | none =>
      let b : Bucket := ⟨l.rps, l.burst, (l.burst : ℚ), now⟩
      (b, { l with limiters := binsert l.limiters key b })

/-- `Limiter.Allow` at instant `now`: fetch or create the bucket, refill
for the elapsed time, and try to consume one token. -/
def Limiter.Allow (l : Limiter) (key : String) (now : ℚ) : Bool × Limiter :=
  let bl := l.getLimiter key now
  let b2 := bl.1.advance now
  let ob := b2.allow1
  (ob.1, { bl.2 with limiters := binsert bl.2.limiters key ob.2 })

/-- `n` back-to-back calls to `Allow` for one key at the same instant. -/
def allowN : ℕ → Limiter → String → ℚ → List Bool × Limiter
  | 0, l, _, _ => ([], l)
  | n + 1, l, key, now =>
      let ol := l.Allow key now
      let rl := allowN n ol.2 key now
      (ol.1 :: rl.1, rl.2)

end Robohub.ratelimit

namespace Robohub.ratelimit

/-- Inserting a bucket makes it visible. -/
theorem blookup_binsert_self (m : List (String × Bucket)) (k : String) (v : Bucket) :
    blookup k (binsert m k v) = some v := by
  induction m with
  | nil => simp [binsert, blookup]
  | cons hd tl ih =>
      obtain ⟨k0, v0⟩ := hd
      by_cases h : k0 = k
      · simp [binsert, h, blookup]
      · simp [binsert, h, blookup, ih]

/-- Re-inserting under the same key keeps only the last bucket. -/
theorem binsert_binsert (m : List (String × Bucket)) (k : String) (v w : Bucket) :
    binsert (binsert m k v) k w = binsert m k w := by
  induction m with
  | nil => simp [binsert]
  | cons hd tl ih =>
      obtain ⟨k0, v0⟩ := hd
      by_cases h : k0 = k
      · simp [binsert, h]
      · simp [binsert, h, ih]

/-- Re-inserting the bucket a key already holds is a no-op. -/
theorem binsert_id (m : List (String × Bucket)) (k : String) (v : Bucket)
    (h : blookup k m = some v) : binsert m k v = m := by
  induction m with
  | nil => simp [blookup] at h
  | cons hd tl ih =>
      obtain ⟨k0, v0⟩ := hd
      by_cases hk : k0 = k
      · subst hk
        simp [blookup] at h
        simp [binsert, h]
      · simp [blookup, hk] at h
        simp [binsert, hk, ih h]

/-- `Allow` on an existing bucket whose last update was this instant:
refill adds nothing, success consumes exactly one token, failure consumes
nothing. -/
theorem Allow_existing (l : Limiter) (key : String) (now : ℚ) (N : ℕ) (t : ℚ)
    (htN : t ≤ (N : ℚ))
    (hb : blookup key l.limiters = some ⟨1, N, t, now⟩) :
    l.Allow key now = (decide (1 ≤ t),
      { l with
        limiters :=
          binsert l.limiters key
            (if 1 ≤ t then ⟨1, N, t - 1, now⟩ else ⟨1, N, t, now⟩) }) := by
  unfold Limiter.Allow Limiter.getLimiter Bucket.advance Bucket.allow1
  rw [hb]
  dsimp only
  have hadv : min ((N : ℕ) : ℚ) (t + 1 * (now - now)) = t := by
    have harith : t + 1 * (now - now) = t := by ring
    rw [harith]
    exact min_eq_right htN
  rw [hadv]
  by_cases h1 : 1 ≤ t
  · rw [if_pos h1, if_pos h1]
    simp [h1]
  · rw [if_neg h1, if_neg h1]
    simp [h1]

end Robohub.ratelimit

namespace Robohub.ratelimit

/-- `Allow` on a missing key creates the bucket full, then consumes from
it. -/
theorem Allow_fresh (l : Limiter) (key : String) (now : ℚ)
    (hnone : blookup key l.limiters = none) :
    l.Allow key now = (decide (1 ≤ (l.burst : ℚ)),
      { l with
        limiters :=
          binsert l.limiters key
            (if 1 ≤ (l.burst : ℚ) then ⟨l.rps, l.burst, (l.burst : ℚ) - 1, now⟩
             else ⟨l.rps, l.burst, (l.burst : ℚ), now⟩) }) := by
  unfold Limiter.Allow Limiter.getLimiter Bucket.advance Bucket.allow1
  rw [hnone]
  dsimp only
  have hadv : min ((l.burst : ℕ) : ℚ) ((l.burst : ℚ) + l.rps * (now - now))
      = (l.burst : ℚ) := by
    have harith : (l.burst : ℚ) + l.rps * (now - now) = (l.burst : ℚ) := by ring
    rw [harith]
    exact min_self _
  rw [hadv]
  by_cases h1 : 1 ≤ (l.burst : ℚ)
  · rw [if_pos h1, if_pos h1]
    simp [h1, binsert_binsert]
  · rw [if_neg h1, if_neg h1]
    simp [h1, binsert_binsert]

/-- From an existing bucket holding exactly `k` tokens stamped at this
instant, `k + 1` back-to-back calls yield `k` successes then one failure,
the failing call changes nothing, and the bucket ends at zero tokens. -/
theorem allowN_existing (key : String) (now : ℚ) (N : ℕ) :
    ∀ (k : ℕ) (l : Limiter), (k : ℚ) ≤ (N : ℚ) →
      blookup key l.limiters = some ⟨1, N, (k : ℚ), now⟩ →
      (allowN (k + 1) l key now).1 = List.replicate k true ++ [false]
      ∧ (allowN (k + 1) l key now).2 = (allowN k l key now).2
      ∧ blookup key ((allowN (k + 1) l key now).2).limiters = some ⟨1, N, 0, now⟩ := by
  intro k
  induction k with
  | zero =>
      intro l hk hb
      have hb0 : blookup key l.limiters = some ⟨1, N, 0, now⟩ := by
        simpa using hb
      have hAllow := Allow_existing l key now N 0 (by exact_mod_cast Nat.zero_le N) hb0
      have hfail : ¬ ((1 : ℚ) ≤ 0) := by norm_num
      rw [if_neg hfail] at hAllow
      rw [binsert_id l.limiters key _ hb0] at hAllow
      simp only [allowN]
      rw [hAllow]
      simp [decide_eq_true_eq, hfail, hb0]
  | succ m ih =>
      intro l hk hb
      have h1t : (1 : ℚ) ≤ ((m + 1 : ℕ) : ℚ) := by
        push_cast
        have := Nat.cast_nonneg (α := ℚ) m
        linarith
      have hAllow := Allow_existing l key now N ((m + 1 : ℕ) : ℚ) hk hb
      rw [if_pos h1t] at hAllow
      have hcast : ((m + 1 : ℕ) : ℚ) - 1 = (m : ℚ) := by push_cast; ring
      rw [hcast] at hAllow
      have hb2 : blookup key
          (binsert l.limiters key ⟨1, N, (m : ℚ), now⟩) = some ⟨1, N, (m : ℚ), now⟩ :=
        blookup_binsert_self l.limiters key _
      have hkm : ((m : ℕ) : ℚ) ≤ (N : ℚ) := by
        push_cast at hk ⊢
        linarith
      have ihm := ih { l with limiters := binsert l.limiters key ⟨1, N, (m : ℚ), now⟩ }
        hkm hb2
      have htrue : decide ((1 : ℚ) ≤ ((m + 1 : ℕ) : ℚ)) = true := by
        simp [h1t]
      constructor
      · show (allowN (m + 1 + 1) l key now).1 = _
        simp only [allowN]
        rw [hAllow]
        simp only [htrue]
        rw [List.replicate_succ]
        simp only [List.cons_append]
        congr 1
        exact ihm.1
      · constructor
        · show (allowN (m + 1 + 1) l key now).2 = (allowN (m + 1) l key now).2
          simp only [allowN]
          rw [hAllow]
          simp only []
          exact ihm.2.1
        · show blookup key ((allowN (m + 1 + 1) l key now).2).limiters = _
          simp only [allowN]
          rw [hAllow]
          simp only []
          exact ihm.2.2

end Robohub.ratelimit

namespace Robohub.ratelimit

/-- One-step unfolding of `allowN`. -/
theorem allowN_succ (n : ℕ) (l : Limiter) (key : String) (now : ℚ) :
    allowN (n + 1) l key now =
      ((l.Allow key now).1 :: (allowN n (l.Allow key now).2 key now).1,
       (allowN n (l.Allow key now).2 key now).2) := rfl

/-- C9[spec-modelled]: with rate 1 token/second and burst N, from a key the
limiter has never seen, N+1 back-to-back calls to `Allow` at the same
instant return exactly N successes followed by one failure; the bucket
ends with zero tokens (the failing call consumes nothing) and, when
N ≥ 1, the failing call leaves the limiter state exactly as it was after
the Nth call. -/
theorem C9_token_bucket_exact_burst (l : Limiter) (key : String) (now : ℚ) (N : ℕ)
    (hr : l.rps = 1) (hb : l.burst = N)
    (hnew : blookup key l.limiters = none) :
    (allowN (N + 1) l key now).1 = List.replicate N true ++ [false]
    ∧ blookup key ((allowN (N + 1) l key now).2).limiters = some ⟨1, N, 0, now⟩
    ∧ (1 ≤ N → (allowN (N + 1) l key now).2 = (allowN N l key now).2) := by
  have hAllow := Allow_fresh l key now hnew
  rw [hr, hb] at hAllow
  cases N with
  | zero =>
      have hfail : ¬ ((1 : ℚ) ≤ ((0 : ℕ) : ℚ)) := by norm_num
      rw [if_neg hfail] at hAllow
      refine ⟨?_, ?_, ?_⟩
      · simp only [allowN]
        rw [hAllow]
        simp [hfail]
      · simp only [allowN]
        rw [hAllow]
        simp only []
        have := blookup_binsert_self l.limiters key
          (⟨1, 0, ((0 : ℕ) : ℚ), now⟩ : Bucket)
        simpa using this
      · intro h
        exact absurd h (by omega)
  | succ M =>
      have h1t : (1 : ℚ) ≤ ((M + 1 : ℕ) : ℚ) := by
        push_cast
        have := Nat.cast_nonneg (α := ℚ) M
        linarith
      rw [if_pos h1t] at hAllow
      have hcast : ((M + 1 : ℕ) : ℚ) - 1 = (M : ℚ) := by push_cast; ring
      rw [hcast] at hAllow
      have hb2 : blookup key
          (binsert l.limiters key ⟨1, M + 1, (M : ℚ), now⟩)
          = some ⟨1, M + 1, (M : ℚ), now⟩ :=
        blookup_binsert_self l.limiters key _
      have hkm : ((M : ℕ) : ℚ) ≤ ((M + 1 : ℕ) : ℚ) := by push_cast; linarith
      have hex := allowN_existing key now (M + 1) M
        ⟨binsert l.limiters key ⟨1, M + 1, (M : ℚ), now⟩, 1, M + 1⟩ hkm hb2
      have htrue : decide ((1 : ℚ) ≤ ((M + 1 : ℕ) : ℚ)) = true := by
        simp [h1t]
      have hAllow2 : l.Allow key now
          = (true, ⟨binsert l.limiters key ⟨1, M + 1, (M : ℚ), now⟩, 1, M + 1⟩) := by
        rw [hAllow]
        simp only [htrue]
      refine ⟨?_, ?_, ?_⟩
      · rw [allowN_succ, hAllow2]
        dsimp only
        rw [hex.1, List.replicate_succ]
        simp
      · rw [allowN_succ, hAllow2]
        dsimp only
        exact hex.2.2
      · intro _
        rw [allowN_succ (M + 1) l key now, allowN_succ M l key now, hAllow2]
        dsimp only
        exact hex.2.1

/-- Witness for C9 at burst 2: three calls give success, success, failure
and the third call changes nothing. -/
theorem C9_witness :
    (allowN 3 (NewLimiter 1 2) "owner/repo" 0).1 = [true, true, false]
    ∧ blookup "owner/repo" ((allowN 3 (NewLimiter 1 2) "owner/repo" 0).2).limiters
        = some ⟨1, 2, 0, 0⟩
    ∧ (allowN 3 (NewLimiter 1 2) "owner/repo" 0).2
        = (allowN 2 (NewLimiter 1 2) "owner/repo" 0).2 :=
  have h := C9_token_bucket_exact_burst (NewLimiter 1 2) "owner/repo" 0 2
    (by rfl) (by rfl) (by rfl)
  ⟨h.1, h.2.1, h.2.2 (by omega)⟩

end Robohub.ratelimit

namespace Robohub.httpapi

open Robohub Robohub.policy

/-- `types.AuthRequest`. -/
structure AuthRequest where
  OIDCToken : String
deriving Repr, DecidableEq

/-- `types.SubjectDetails`. -/
structure SubjectDetails where
  Provider : String
  Repository : String
  Ref : String
  Workflow : String
  RunID : String
  Actor : String
deriving Repr, DecidableEq

/-- `types.AuthResponse` (the RFC3339 `issued_at` string-formatting of the
wall clock is not modelled; `ExpiresIn` is the whole-second remaining
lifetime `int(time.Until(expiresAt).Seconds())`). -/
structure AuthResponse where
  AccessToken : String
  ExpiresIn : ℤ
  TokenType : String
  Subject : SubjectDetails
deriving Repr, DecidableEq

/-- `types.ErrorResponse` together with the HTTP status it is sent with. -/
structure ErrorResponse where
  status : ℕ
  error : String
  message : String
deriving Repr, DecidableEq

/-- The outcome written by the handler. -/
inductive HandlerResult where
  | ok (resp : AuthResponse)
  | err (e : ErrorResponse)
deriving Repr, DecidableEq

/-- The four pipeline stages the handler can invoke. -/
inductive Stage where
  | verify
  | rateLimit
  | policy
  | mint
deriving Repr, DecidableEq

/-- The full stage order of the pipeline. -/
def stageOrder : List Stage := [.verify, .rateLimit, .policy, .mint]

/-- `err.Error()` for a policy error: the formatted message it carries. -/
def policyErrMessage : PolicyErr → String
  | .deniedByPolicy msg => msg
  | .notInAllowlist msg => msg
  | .onlyDefaultBranch msg => msg

/-- `Server.handleGitHubOIDC`.  The collaborators the handler calls are
passed as functions: `verify` is the `oidc.Verifier` interface (whose Go
error is kept abstract as a string), `allow` is `Limiter.Allow` keyed by
repository, the policy enforcer is the concrete `Enforcer`, and `mint` is
`Minter.Mint` (token string and expiry, or an error).  `body` is the
decoded request (`none` models a JSON decode failure); `now` is the wall
clock used for `ExpiresIn`.  The second component is the trace of stages
invoked, in invocation order. -/
def handleGitHubOIDC (body : Option AuthRequest)
    (verify : String → Except String VerifiedClaims)
    (allow : String → Bool)
    (enf : Enforcer)
    (mint : VerifiedClaims → Except Unit (String × ℤ))
    (now : ℤ) : HandlerResult × List Stage :=
  match body with
  | none => (.err ⟨400, "invalid_request", "invalid JSON in request body"⟩, [])
  | some req =>
      if req.OIDCToken = "" then
        (.err ⟨400, "invalid_request", "missing oidc_token field"⟩, [])
      else
        match verify req.OIDCToken with
        | .error _ =>
            (.err ⟨401, "invalid_token", "failed to verify OIDC token"⟩, [.verify])
        | .ok claims =>
            if ¬ allow claims.Repository then
              (.err ⟨429, "rate_limited", "rate limit exceeded for repository"⟩,
               [.verify, .rateLimit])
            else
              match enf.Evaluate claims.Repository claims.Ref with
              | some perr =>
                  (.err ⟨403, "policy_violation", policyErrMessage perr⟩,
                   [.verify, .rateLimit, .policy])
              | none =>
                  match mint claims with
                  | .error _ =>
                      (.err ⟨500, "internal_error", "failed to create access token"⟩,
                       [.verify, .rateLimit, .policy, .mint])
                  | .ok (accessToken, expiresAt) =>
                      (.ok {
                        AccessToken := accessToken
                        ExpiresIn := expiresAt - now
                        TokenType := "Bearer"
                        Subject := {
                          Provider := "github_actions"
                          Repository := claims.Repository
                          Ref := claims.Ref
                          Workflow := claims.Workflow
                          RunID := claims.RunID
                          Actor := claims.Actor } },
                       [.verify, .rateLimit, .policy, .mint])

end Robohub.httpapi

namespace Robohub.httpapi

open Robohub Robohub.policy

/-- The stage trace as the specification words it: the stages run in the
order Verify, RateLimit, Policy, Mint; a failing stage is the last one
invoked; a malformed body or empty token field invokes none. -/
def specTrace (body : Option AuthRequest)
    (verify : String → Except String VerifiedClaims)
    (allow : String → Bool)
    (enf : Enforcer)
    (_mint : VerifiedClaims → Except Unit (String × ℤ)) : List Stage :=
  match body with
  | none => []
  | some req =>
      if req.OIDCToken = "" then []
      else
        match verify req.OIDCToken with
        | .error _ => [.verify]
        | .ok claims =>
            if allow claims.Repository = false then [.verify, .rateLimit]
            else if decisionOf (enf.Evaluate claims.Repository claims.Ref)
                ≠ Decision.allow then
              [.verify, .rateLimit, .policy]
            else [.verify, .rateLimit, .policy, .mint]

/-- The failure category of a request, as the specification's taxonomy
words it. -/
inductive FailCat where
  | malformedRequest
  | verifyFailed
  | rateLimited
  | policyDenied
  | mintFailed
  | success
deriving Repr, DecidableEq

/-- Category of one request, per the spec's cascade. -/
def failCategory (body : Option AuthRequest)
    (verify : String → Except String VerifiedClaims)
    (allow : String → Bool)
    (enf : Enforcer)
    (mint : VerifiedClaims → Except Unit (String × ℤ)) : FailCat :=
  match body with
  | none => .malformedRequest
  | some req =>
      if req.OIDCToken = "" then .malformedRequest
      else
        match verify req.OIDCToken with
        | .error _ => .verifyFailed
        | .ok claims =>
            if allow claims.Repository = false then .rateLimited
            else if decisionOf (enf.Evaluate claims.Repository claims.Ref)
                ≠ Decision.allow then .policyDenied
            else
              match mint claims with
              | .error _ => .mintFailed
              | .ok _ => .success

/-- The fixed category→code mapping of the specification. -/
def specErrCode : FailCat → Option String
  | .malformedRequest => some "invalid_request"
  | .verifyFailed => some "invalid_token"
  | .rateLimited => some "rate_limited"
  | .policyDenied => some "policy_violation"
  | .mintFailed => some "internal_error"
  | .success => none

/-- The error code actually written by the handler (`none` on success). -/
def errCodeOf : HandlerResult → Option String
  | .ok _ => none
  | .err e => some e.error

/-- C2: for every request and every behavior of the verifier, limiter,
policy enforcer and minter, the handler invokes the stages in the order
Verify, RateLimit, Policy, Mint, stopping at the first failing stage (and
invoking nothing on a malformed body or empty token field); the trace is
always a prefix of the full stage order. -/
theorem C2_stage_order_and_short_circuit (body : Option AuthRequest)
    (verify : String → Except String VerifiedClaims)
    (allow : String → Bool)
    (enf : Enforcer)
    (mint : VerifiedClaims → Except Unit (String × ℤ))
    (now : ℤ) :
    (handleGitHubOIDC body verify allow enf mint now).2
        = specTrace body verify allow enf mint
    ∧ (handleGitHubOIDC body verify allow enf mint now).2
        = stageOrder.take (handleGitHubOIDC body verify allow enf mint now).2.length := by
  cases body with
  | none => exact ⟨rfl, rfl⟩
  | some req =>
      by_cases ht : req.OIDCToken = ""
      · simp [handleGitHubOIDC, specTrace, ht, stageOrder]
      · cases hv : verify req.OIDCToken with
        | error e =>
            simp [handleGitHubOIDC, specTrace, ht, hv, stageOrder]
        | ok claims =>
            by_cases ha : allow claims.Repository
            · cases he : enf.Evaluate claims.Repository claims.Ref with
              | some perr =>
                  simp [handleGitHubOIDC, specTrace, ht, hv, ha, he, stageOrder,
                    decisionOf]
                  cases perr <;> simp [decisionOf]
              | none =>
                  cases hm : mint claims with
                  | error u =>
                      simp [handleGitHubOIDC, specTrace, ht, hv, ha, he, hm,
                        stageOrder, decisionOf]
                  | ok pair =>
                      obtain ⟨tokStr, expAt⟩ := pair
                      simp [handleGitHubOIDC, specTrace, ht, hv, ha, he, hm,
                        stageOrder, decisionOf]
            · simp [handleGitHubOIDC, specTrace, ht, hv, ha, stageOrder]

/-- C3: the handler's error code is exactly the fixed code of its failure
category — invalid_request for a malformed body or empty token field,
invalid_token for a verification failure, rate_limited for a limiter
rejection, policy_violation for a policy denial, internal_error for a mint
failure — and no error code on success. -/
theorem C3_error_code_mapping (body : Option AuthRequest)
    (verify : String → Except String VerifiedClaims)
    (allow : String → Bool)
    (enf : Enforcer)
    (mint : VerifiedClaims → Except Unit (String × ℤ))
    (now : ℤ) :
    errCodeOf (handleGitHubOIDC body verify allow enf mint now).1
      = specErrCode (failCategory body verify allow enf mint) := by
  cases body with
  | none => rfl
  | some req =>
      by_cases ht : req.OIDCToken = ""
      · simp [handleGitHubOIDC, failCategory, ht, errCodeOf, specErrCode]
      · cases hv : verify req.OIDCToken with
        | error e =>
            simp [handleGitHubOIDC, failCategory, ht, hv, errCodeOf, specErrCode]
        | ok claims =>
            by_cases ha : allow claims.Repository
            · cases he : enf.Evaluate claims.Repository claims.Ref with
              | some perr =>
                  simp [handleGitHubOIDC, failCategory, ht, hv, ha, he, errCodeOf,
                    specErrCode, decisionOf]
                  cases perr <;> simp [decisionOf]
              | none =>
                  cases hm : mint claims with
                  | error u =>
                      simp [handleGitHubOIDC, failCategory, ht, hv, ha, he, hm,
                        errCodeOf, specErrCode, decisionOf]
                  | ok pair =>
                      obtain ⟨tokStr, expAt⟩ := pair
                      simp [handleGitHubOIDC, failCategory, ht, hv, ha, he, hm,
                        errCodeOf, specErrCode, decisionOf]
            · simp [handleGitHubOIDC, failCategory, ht, hv, ha, errCodeOf,
                specErrCode]

end Robohub.httpapi
